import Mathlib

/-!
Verification of the deltachat-rpc-client JSON-RPC correlation engine
(`deltachat_rpc_client/__init__.py`): a shallow embedding of the
`Deltachat` class — the reader loop, the pending-call table
(`request_events`), the event queue and the dynamic call dispatcher —
together with theorems settling the specification's claims about it.
-/

/-- A JSON value, as produced by `json.loads` on one line of the
process's output stream. -/
inductive Json where
  | null
  | bool (b : Bool)
  | num (n : Int)
  | str (s : String)
  | arr (xs : List Json)
  | obj (fields : List (String × Json))

mutual

/-- Decidable equality on JSON values (Python `==` on decoded values). -/
def Json.decEq : (a b : Json) → Decidable (a = b)
  | .null, .null => isTrue rfl
  | .null, .bool _ => isFalse (by simp)
  | .null, .num _ => isFalse (by simp)
  | .null, .str _ => isFalse (by simp)
  | .null, .arr _ => isFalse (by simp)
  | .null, .obj _ => isFalse (by simp)
  | .bool _, .null => isFalse (by simp)
  | .bool a, .bool b =>
      if h : a = b then isTrue (by rw [h]) else isFalse (by simp [h])
  | .bool _, .num _ => isFalse (by simp)
  | .bool _, .str _ => isFalse (by simp)
  | .bool _, .arr _ => isFalse (by simp)
  | .bool _, .obj _ => isFalse (by simp)
  | .num _, .null => isFalse (by simp)
  | .num _, .bool _ => isFalse (by simp)
  | .num a, .num b =>
      if h : a = b then isTrue (by rw [h]) else isFalse (by simp [h])
  | .num _, .str _ => isFalse (by simp)
  | .num _, .arr _ => isFalse (by simp)
  | .num _, .obj _ => isFalse (by simp)
  | .str _, .null => isFalse (by simp)
  | .str _, .bool _ => isFalse (by simp)
  | .str _, .num _ => isFalse (by simp)
  | .str a, .str b =>
      if h : a = b then isTrue (by rw [h]) else isFalse (by simp [h])
  | .str _, .arr _ => isFalse (by simp)
  | .str _, .obj _ => isFalse (by simp)
  | .arr _, .null => isFalse (by simp)
  | .arr _, .bool _ => isFalse (by simp)
  | .arr _, .num _ => isFalse (by simp)
  | .arr _, .str _ => isFalse (by simp)
  | .arr xs, .arr ys =>
      match Json.decEqL xs ys with
      | isTrue h => isTrue (by rw [h])
      | isFalse h => isFalse (by simp [h])
  | .arr _, .obj _ => isFalse (by simp)
  | .obj _, .null => isFalse (by simp)
  | .obj _, .bool _ => isFalse (by simp)
  | .obj _, .num _ => isFalse (by simp)
  | .obj _, .str _ => isFalse (by simp)
  | .obj _, .arr _ => isFalse (by simp)
  | .obj xs, .obj ys =>
      match Json.decEqO xs ys with
      | isTrue h => isTrue (by rw [h])
      | isFalse h => isFalse (by simp [h])

/-- Decidable equality on JSON arrays. -/
def Json.decEqL : (a b : List Json) → Decidable (a = b)
  | [], [] => isTrue rfl
  | [], _ :: _ => isFalse (by simp)
  | _ :: _, [] => isFalse (by simp)
  | x :: xs, y :: ys =>
      match Json.decEq x y, Json.decEqL xs ys with
      | isTrue h1, isTrue h2 => isTrue (by rw [h1, h2])
      | isFalse h1, _ => isFalse (by simp [h1])
      | _, isFalse h2 => isFalse (by simp [h2])

/-- Decidable equality on JSON object field lists. -/
def Json.decEqO : (a b : List (String × Json)) → Decidable (a = b)
  | [], [] => isTrue rfl
  | [], _ :: _ => isFalse (by simp)
  | _ :: _, [] => isFalse (by simp)
  | (k1, v1) :: xs, (k2, v2) :: ys =>
      match String.decEq k1 k2, Json.decEq v1 v2, Json.decEqO xs ys with
      | isTrue hk, isTrue h1, isTrue h2 => isTrue (by rw [hk, h1, h2])
      | isFalse hk, _, _ => isFalse (by simp [hk])
      | _, isFalse h1, _ => isFalse (by simp [h1])
      | _, _, isFalse h2 => isFalse (by simp [h2])

end

instance : DecidableEq Json := Json.decEq

/-- Python's `response[key]` / `key in response` on a decoded JSON
object: first binding of `key` among the object's fields (JSON objects
decoded by `json.loads` have unique keys). Non-objects hold no keys. -/
def Json.lookup : Json → String → Option Json
  | .obj fields, k => fields.lookup k
  | _, _ => none

/-- State of one `asyncio.Future` created by a call: still pending, or
resolved by `fut.set_result(response)` with the full response object. -/
inductive CallState where
  | pending
  | resolved (response : Json)
deriving DecidableEq

/-- The engine state of one `Deltachat` instance: the fused view of the
`request_events` dict and the futures it points to (an entry is in the
dict exactly while its state is `pending`, since `reader_loop` pops the
key and calls `set_result` back to back), the `event_queue` (front =
next to be consumed), the `id` counter, and the requests written to the
process's stdin. -/
structure Engine where
  calls : List (Json × CallState)
  eventQueue : List Json
  nextId : Nat
  sent : List Json
deriving DecidableEq

/-- `Deltachat.__init__`: id counter 0, empty dict, empty queue. -/
def initEngine : Engine := { calls := [], eventQueue := [], nextId := 0, sent := [] }

/-- First binding of request id `i` in the table. -/
def lookupCall : List (Json × CallState) → Json → Option CallState
  | [], _ => none
  | (j, st) :: rest, i => if j = i then some st else lookupCall rest i

/-- Overwrite the first binding of request id `i` in the table. -/
def setCall : List (Json × CallState) → Json → CallState → List (Json × CallState)
  | [], _, _ => []
  | (j, st) :: rest, i, st' => if j = i then (i, st') :: rest else (j, st) :: setCall rest i st'

/-- An uncaught Python exception terminating the `reader_loop` task. -/
inductive ReaderErr where
  | decodeError  -- `json.loads` raised (malformed line, or the empty line read at EOF)
  | keyError     -- `request_events.pop` / `response["method"]` / `response["params"]` raised
deriving DecidableEq

/-- One iteration of `Deltachat.reader_loop` on a decoded line:
if the message has an `id`, pop the pending future for it (KeyError if
absent) and resolve it with the whole response; otherwise, if `method`
is `"event"`, enqueue `params`; any other message with a `method` is
silently skipped; a message with neither raises KeyError. -/
def readerStep (s : Engine) (response : Json) : Except ReaderErr Engine :=
  match response.lookup "id" with
  | some i =>
      match lookupCall s.calls i with
      | some .pending => .ok { s with calls := setCall s.calls i (.resolved response) }
      | _ => .error .keyError
  | none =>
      match response.lookup "method" with
      | some m =>
          if m = Json.str "event" then
            match response.lookup "params" with
            | some p => .ok { s with eventQueue := s.eventQueue ++ [p] }
            | none => .error .keyError
          else .ok s
      | none => .error .keyError

/-- Run `reader_loop` over a prefix of the output stream. Each element
is the decode result of one `readline`: `some j` for a line decoding to
`j`, `none` for a line `json.loads` rejects — in particular the empty
line returned at end-of-stream. Returns the state when the loop stops
consuming input and the exception, if any, that killed the task. -/
def readerRun (s : Engine) : List (Option Json) → Engine × Option ReaderErr
  | [] => (s, none)
  | none :: _ => (s, some .decodeError)
  | some j :: rest =>
      match readerStep s j with
      | .ok s' => readerRun s' rest
      | .error e => (s, some e)

/-- `Deltachat.get_next_event`: pop the front of `event_queue`, or
suspend (`none`) if it is empty. -/
def get_next_event (s : Engine) : Option (Json × Engine) :=
  match s.eventQueue with
  | [] => none
  | e :: rest => some (e, { s with eventQueue := rest })

/-- The send half of the coroutine returned by `Deltachat.__getattr__`:
increment `self.id`, pick `params` (kwargs when non-empty, after
`assert not args`; else args), build the request, write it to stdin and
register a fresh pending future under the new id. Returns the engine
after the coroutine reaches `await fut`, and either the request sent or
the `AssertionError` (note `self.id` is incremented even then). -/
def sendRequest (s : Engine) (attr : String) (args : List Json)
    (kwargs : List (String × Json)) : Engine × Except Unit Json :=
  let s1 : Engine := { s with nextId := s.nextId + 1 }
  let requestId := s1.nextId
  if kwargs ≠ [] ∧ args ≠ [] then (s1, .error ())
  else
    let params : Json := if kwargs ≠ [] then .obj kwargs else .arr args
    let request : Json := .obj [("jsonrpc", .str "2.0"), ("method", .str attr),
      ("params", params), ("id", .num requestId)]
    ({ s1 with sent := s1.sent ++ [request],
               calls := s1.calls ++ [(.num requestId, .pending)] }, .ok request)

/-- What a call observes after `await fut` hands it the response: the
resume half of `Deltachat.__getattr__`'s coroutine. -/
inductive CallOutcome where
  | raised (e : Json)           -- `raise JsonRpcError(response["error"])`
  | returned (v : Option Json)  -- `return response["result"]`, or the implicit `return None`
deriving DecidableEq

/-- Resume half of the call coroutine: raise `JsonRpcError` when the
response carries `error`, else return `result` when present, else
fall off the end returning `None`. -/
def completeCall (response : Json) : CallOutcome :=
  match response.lookup "error" with
  | some e => .raised e
  | none =>
      match response.lookup "result" with
      | some r => .returned (some r)
      | none => .returned none

/-! ### Scenario states and call sequences -/

/-- One invocation of the dynamic dispatch surface: the attribute name
looked up on the `Deltachat` object plus the arguments passed to the
returned coroutine function. -/
structure CallSpec where
  attr : String
  args : List Json
  kwargs : List (String × Json)
deriving DecidableEq

/-- Issue a sequence of calls back to back (none awaited yet): each one
runs the send half of its coroutine up to `await fut`. -/
def runCalls (s : Engine) : List CallSpec → Engine
  | [] => s
  | c :: cs => runCalls (sendRequest s c.attr c.args c.kwargs).1 cs

/-- Two pending calls with ids 5 and 6; the response for id 6 arrives
first carrying result 42: the reader resolves call 6 with it, the
caller gets 42 back, call 5 is untouched, and either arrival order of
the two responses ends in the same state. -/
def c1State : Engine :=
  { calls := [(Json.num 5, .pending), (Json.num 6, .pending)], eventQueue := [],
    nextId := 6, sent := [] }

/-- Three valid calls issued on a fresh engine for the C2 witness. -/
def c2Specs : List CallSpec :=
  [⟨"get_system_info", [], []⟩, ⟨"add_account", [], []⟩,
   ⟨"get_info", [Json.num 1], []⟩]

/-- A pending call with id 3 for the C4 witness. -/
def c4State : Engine :=
  { calls := [(Json.num 3, .pending)], eventQueue := [], nextId := 3, sent := [] }

/-- The error payload of the C4 witness response, preserved verbatim. -/
def c4Err : Json := .obj [("code", .num (-32602)), ("message", .str "invalid params")]

/-- Two event notifications for the C5 witness. -/
def c5Event1 : Json :=
  .obj [("method", .str "event"),
        ("params", .obj [("contextId", .num 1),
          ("event", .obj [("type", .str "Info"), ("msg", .str "hi")])])]

/-- Second event notification for the C5 witness. -/
def c5Event2 : Json :=
  .obj [("method", .str "event"),
        ("params", .obj [("contextId", .num 1),
          ("event", .obj [("type", .str "IncomingMsg"), ("msgId", .num 8)])])]

/-- A single pending call with id 1, the engine state used by the
end-of-stream and desynchronization scenarios. -/
def onePending : Engine :=
  { calls := [(Json.num 1, .pending)], eventQueue := [], nextId := 1, sent := [] }

/-- A response whose id 99 was never registered. -/
def strayResponse : Json := .obj [("id", .num 99), ("result", .num 0)]

/-- A message with neither an id nor the `"event"` method. -/
def oddNotification : Json := .obj [("method", .str "connectivity"), ("params", .arr [])]

/-! ### Table lemmas -/

theorem lookupCall_setCall_self (l : List (Json × CallState)) (i : Json)
    (st st' : CallState) (h : lookupCall l i = some st) :
    lookupCall (setCall l i st') i = some st' := by
  induction l with
  | nil => simp [lookupCall] at h
  | cons p rest ih =>
      obtain ⟨j, st0⟩ := p
      by_cases hj : j = i
      · subst hj
        simp [lookupCall, setCall]
      · simp only [lookupCall, setCall, if_neg hj] at h ⊢
        exact ih h

theorem lookupCall_setCall_ne (l : List (Json × CallState)) (i j : Json)
    (st' : CallState) (h : j ≠ i) :
    lookupCall (setCall l i st') j = lookupCall l j := by
  induction l with
  | nil => simp [setCall]
  | cons p rest ih =>
      obtain ⟨k, st0⟩ := p
      by_cases hk : k = i
      · subst hk
        simp only [setCall, if_pos rfl, lookupCall, if_neg (Ne.symm h)]
      · simp only [setCall, if_neg hk, lookupCall]
        by_cases hkj : k = j
        · simp [hkj]
        · simp only [if_neg hkj]
          exact ih

theorem setCall_comm (l : List (Json × CallState)) (i j : Json) (a b : CallState)
    (h : i ≠ j) :
    setCall (setCall l i a) j b = setCall (setCall l j b) i a := by
  induction l with
  | nil => simp [setCall]
  | cons p rest ih =>
      obtain ⟨k, st0⟩ := p
      by_cases hki : k = i
      · subst hki
        simp [setCall, h, Ne.symm h]
      · by_cases hkj : k = j
        · subst hkj
          simp [setCall, h, Ne.symm h, hki]
        · simp [setCall, hki, hkj, ih]

/-! ### Claim theorems -/

/-- C1: a Response whose id matches a currently pending call resolves
exactly that call's future with the Response; the call invocation then
returns the Response's `result` value; every other id's table entry is
unchanged; and two Responses for distinct pending ids produce the same
final state in either arrival order. -/
theorem C1_matching_response_resolves_only_its_call (s : Engine) (r i v : Json)
    (hid : r.lookup "id" = some i)
    (hpend : lookupCall s.calls i = some CallState.pending)
    (hres : r.lookup "result" = some v)
    (herr : r.lookup "error" = none) :
    readerStep s r = .ok { s with calls := setCall s.calls i (.resolved r) } ∧
    lookupCall (setCall s.calls i (.resolved r)) i = some (.resolved r) ∧
    completeCall r = .returned (some v) ∧
    (∀ j, j ≠ i → lookupCall (setCall s.calls i (.resolved r)) j = lookupCall s.calls j) ∧
    (∀ r2 i2, r2.lookup "id" = some i2 → i2 ≠ i →
      lookupCall s.calls i2 = some CallState.pending →
      readerRun s [some r, some r2] = readerRun s [some r2, some r]) := by
  refine ⟨?_, ?_, ?_, ?_, ?_⟩
  · simp [readerStep, hid, hpend]
  · exact lookupCall_setCall_self _ _ _ _ hpend
  · simp [completeCall, herr, hres]
  · intro j hj
    exact lookupCall_setCall_ne _ _ _ _ hj
  · intro r2 i2 hid2 hne hpend2
    have h1 : lookupCall (setCall s.calls i (CallState.resolved r)) i2 =
        some CallState.pending := by
      rw [lookupCall_setCall_ne _ _ _ _ hne]; exact hpend2
    have h2 : lookupCall (setCall s.calls i2 (CallState.resolved r2)) i =
        some CallState.pending := by
      rw [lookupCall_setCall_ne _ _ _ _ (Ne.symm hne)]; exact hpend
    simp only [readerRun, readerStep, hid, hid2, hpend, hpend2, h1, h2]
    rw [setCall_comm _ _ _ _ _ (Ne.symm hne)]

/-- C1 witness: the theorem applied to the two-call scenario, ids 5 and
6, response id 6 first. -/
theorem C1_witness :
    completeCall (Json.obj [("id", Json.num 6), ("result", Json.num 42)]) =
      CallOutcome.returned (some (Json.num 42)) ∧
    lookupCall (setCall c1State.calls (Json.num 6)
        (.resolved (Json.obj [("id", Json.num 6), ("result", Json.num 42)])))
      (Json.num 5) = lookupCall c1State.calls (Json.num 5) ∧
    readerRun c1State [some (Json.obj [("id", Json.num 6), ("result", Json.num 42)]),
        some (Json.obj [("id", Json.num 5), ("result", Json.str "ok")])] =
      readerRun c1State [some (Json.obj [("id", Json.num 5), ("result", Json.str "ok")]),
        some (Json.obj [("id", Json.num 6), ("result", Json.num 42)])] := by
  have h := C1_matching_response_resolves_only_its_call c1State
    (Json.obj [("id", Json.num 6), ("result", Json.num 42)]) (Json.num 6) (Json.num 42)
    rfl rfl rfl rfl
  exact ⟨h.2.2.1, h.2.2.2.1 (Json.num 5) (by decide),
    h.2.2.2.2 (Json.obj [("id", Json.num 5), ("result", Json.str "ok")])
      (Json.num 5) rfl (by decide) rfl⟩

/-! ### Sequences of calls -/

/-- The request written by a successful `sendRequest` carries the new
counter value as its `"id"` field. -/
theorem lookup_id_request (m : String) (p : Json) (n : Int) :
    (Json.obj [("jsonrpc", Json.str "2.0"), ("method", Json.str m), ("params", p),
      ("id", Json.num n)]).lookup "id" = some (Json.num n) := rfl

/-- State after a run of valid calls: the counter advances by one per
call, the ids of the requests written to stdin continue the counter,
and one pending table entry is registered per call. -/
theorem runCalls_state (specs : List CallSpec) :
    ∀ s : Engine, (∀ c ∈ specs, c.args = [] ∨ c.kwargs = []) →
      (runCalls s specs).nextId = s.nextId + specs.length ∧
      (runCalls s specs).sent.map (fun r => r.lookup "id") =
        s.sent.map (fun r => r.lookup "id") ++
          (List.range' (s.nextId + 1) specs.length).map (fun k : Nat => some (Json.num (k : Int))) ∧
      (runCalls s specs).calls =
        s.calls ++ (List.range' (s.nextId + 1) specs.length).map
          (fun k : Nat => (Json.num (k : Int), CallState.pending)) := by
  induction specs with
  | nil => intro s _; simp [runCalls]
  | cons c cs ih =>
      intro s hv
      have hguard : ¬(c.kwargs ≠ [] ∧ c.args ≠ []) := by
        rcases hv c (by simp) with h | h <;> simp [h]
      have hstep : (sendRequest s c.attr c.args c.kwargs).1 =
          { s with nextId := s.nextId + 1,
                   sent := s.sent ++ [Json.obj [("jsonrpc", .str "2.0"),
                     ("method", .str c.attr),
                     ("params", if c.kwargs ≠ [] then .obj c.kwargs else .arr c.args),
                     ("id", .num (s.nextId + 1))]],
                   calls := s.calls ++ [(Json.num (s.nextId + 1), CallState.pending)] } := by
        simp [sendRequest, hguard]
      have hrest : ∀ x ∈ cs, x.args = [] ∨ x.kwargs = [] := fun x hx => hv x (by simp [hx])
      obtain ⟨ih1, ih2, ih3⟩ := ih ((sendRequest s c.attr c.args c.kwargs).1) hrest
      rw [hstep] at ih1 ih2 ih3
      simp only [runCalls]
      rw [hstep]
      refine ⟨?_, ?_, ?_⟩
      · rw [ih1]; simp; omega
      · rw [ih2]
        simp [List.range'_succ, lookup_id_request]
      · rw [ih3]
        simp [List.range'_succ]

/-- C2: starting from a fresh engine, a sequence of n valid calls
produces exactly one request each, with ids exactly 1, 2, …, n in
order — assigned by a strictly increasing counter starting at 1, so an
id is unique among the registered pending entries and is never
reused. -/
theorem C2_ids_strictly_increasing (specs : List CallSpec)
    (hvalid : ∀ c ∈ specs, c.args = [] ∨ c.kwargs = []) :
    (runCalls initEngine specs).sent.map (fun r => r.lookup "id") =
      (List.range' 1 specs.length).map (fun k : Nat => some (Json.num (k : Int))) ∧
    (runCalls initEngine specs).sent.length = specs.length ∧
    ((runCalls initEngine specs).calls.map Prod.fst).Nodup := by
  obtain ⟨h1, h2, h3⟩ := runCalls_state specs initEngine hvalid
  refine ⟨by simpa [initEngine] using h2, ?_, ?_⟩
  · have hlen := congrArg List.length h2
    simp only [List.length_map, List.length_append, List.length_range'] at hlen
    simpa [initEngine] using hlen
  · rw [h3]
    simp only [initEngine, List.nil_append, List.map_map, Nat.zero_add]
    refine List.Nodup.map ?_ (List.nodup_range' 1 specs.length)
    intro a b hab
    simpa using hab

/-- C2 witness: three calls get ids 1, 2, 3, and the registered pending
ids are distinct. -/
theorem C2_witness :
    (runCalls initEngine c2Specs).sent.map (fun r => r.lookup "id") =
      [some (Json.num 1), some (Json.num 2), some (Json.num 3)] ∧
    ((runCalls initEngine c2Specs).calls.map Prod.fst).Nodup := by
  have h := C2_ids_strictly_increasing c2Specs (by decide)
  exact ⟨h.1.trans (by decide), h.2.2⟩

/-- C4: a Response carrying an `error` field resolves its pending call,
which then raises `JsonRpcError` with exactly that error payload — it
never also returns a result value — while every other table entry, the
event queue and the rest of the session state are unchanged. -/
theorem C4_error_response_raises_verbatim (s : Engine) (r i e : Json)
    (hid : r.lookup "id" = some i)
    (hpend : lookupCall s.calls i = some CallState.pending)
    (herr : r.lookup "error" = some e) :
    readerStep s r = .ok { s with calls := setCall s.calls i (.resolved r) } ∧
    completeCall r = .raised e ∧
    (∀ v, completeCall r ≠ .returned v) ∧
    lookupCall (setCall s.calls i (.resolved r)) i = some (.resolved r) ∧
    (∀ j, j ≠ i → lookupCall (setCall s.calls i (.resolved r)) j = lookupCall s.calls j) := by
  refine ⟨?_, ?_, ?_, ?_, ?_⟩
  · simp [readerStep, hid, hpend]
  · simp [completeCall, herr]
  · intro v
    simp [completeCall, herr]
  · exact lookupCall_setCall_self _ _ _ _ hpend
  · intro j hj
    exact lookupCall_setCall_ne _ _ _ _ hj

/-- C4 witness: the error object constructed into the response is the
error object the call raises. -/
theorem C4_witness :
    completeCall (Json.obj [("id", Json.num 3), ("error", c4Err)]) =
      CallOutcome.raised c4Err ∧
    (∀ v, completeCall (Json.obj [("id", Json.num 3), ("error", c4Err)]) ≠
      CallOutcome.returned v) := by
  have h := C4_error_response_raises_verbatim c4State
    (Json.obj [("id", Json.num 3), ("error", c4Err)]) (Json.num 3) c4Err rfl rfl rfl
  exact ⟨h.2.1, h.2.2.1⟩

/-- C10: a Response for a pending call with neither a `result` nor an
`error` field still resolves the call, and the call completes normally
returning `None` — it neither raises nor stays pending. -/
theorem C10_bare_response_returns_none (s : Engine) (r i : Json)
    (hid : r.lookup "id" = some i)
    (hpend : lookupCall s.calls i = some CallState.pending)
    (herr : r.lookup "error" = none)
    (hres : r.lookup "result" = none) :
    readerStep s r = .ok { s with calls := setCall s.calls i (.resolved r) } ∧
    lookupCall (setCall s.calls i (.resolved r)) i = some (.resolved r) ∧
    completeCall r = .returned none := by
  refine ⟨?_, ?_, ?_⟩
  · simp [readerStep, hid, hpend]
  · exact lookupCall_setCall_self _ _ _ _ hpend
  · simp [completeCall, herr, hres]

/-- C10 witness: a response `{"id": 3}` with no result and no error
makes the call return `None`. -/
theorem C10_witness :
    completeCall (Json.obj [("id", Json.num 3)]) = CallOutcome.returned none ∧
    readerStep c4State (Json.obj [("id", Json.num 3)]) =
      .ok { c4State with calls := (setCall c4State.calls (Json.num 3)
        (.resolved (Json.obj [("id", Json.num 3)]))) } := by
  have h := C10_bare_response_returns_none c4State (Json.obj [("id", Json.num 3)])
    (Json.num 3) rfl rfl rfl rfl
  exact ⟨h.2.2, h.1⟩

/-- C9: the dispatcher accepts positional arguments or keyword
arguments but never both: with both supplied the coroutine hits
`assert not args` and raises before any request is built, written to
stdin, or registered (only the id counter has already advanced); with
at most one form supplied it sends exactly one request whose params are
the keyword mapping when present and the positional tuple otherwise. -/
theorem C9_positional_keyword_exclusive (s : Engine) (attr : String) (args : List Json)
    (kwargs : List (String × Json)) :
    (args ≠ [] → kwargs ≠ [] →
      sendRequest s attr args kwargs = ({ s with nextId := s.nextId + 1 }, .error ())) ∧
    (kwargs = [] →
      sendRequest s attr args kwargs =
        ({ s with nextId := s.nextId + 1,
                  sent := (s.sent ++ [Json.obj [("jsonrpc", .str "2.0"),
                    ("method", .str attr),
                    ("params", .arr args), ("id", .num (s.nextId + 1))]]),
                  calls := s.calls ++ [(Json.num (s.nextId + 1), CallState.pending)] },
         .ok (Json.obj [("jsonrpc", .str "2.0"), ("method", .str attr),
              ("params", .arr args), ("id", .num (s.nextId + 1))]))) ∧
    (args = [] → kwargs ≠ [] →
      sendRequest s attr args kwargs =
        ({ s with nextId := s.nextId + 1,
                  sent := (s.sent ++ [Json.obj [("jsonrpc", .str "2.0"),
                    ("method", .str attr),
                    ("params", .obj kwargs), ("id", .num (s.nextId + 1))]]),
                  calls := s.calls ++ [(Json.num (s.nextId + 1), CallState.pending)] },
         .ok (Json.obj [("jsonrpc", .str "2.0"), ("method", .str attr),
              ("params", .obj kwargs), ("id", .num (s.nextId + 1))]))) := by
  refine ⟨?_, ?_, ?_⟩
  · intro ha hk
    simp [sendRequest, ha, hk]
  · intro hk
    simp [sendRequest, hk]
  · intro ha hk
    simp [sendRequest, ha, hk]

/-- C9 witness: mixing one positional and one keyword argument on a
fresh engine raises the assertion before anything is sent; the same
call with only the keyword argument sends one request with the keyword
mapping as params. -/
theorem C9_witness :
    sendRequest initEngine "set_config" [Json.num 1] [("key", Json.str "addr")] =
      ({ initEngine with nextId := 1 }, .error ()) ∧
    sendRequest initEngine "set_config" [] [("key", Json.str "addr")] =
      ({ initEngine with nextId := 1,
                         sent := ([Json.obj [("jsonrpc", .str "2.0"),
                           ("method", .str "set_config"),
                           ("params", .obj [("key", Json.str "addr")]), ("id", .num 1)]]),
                         calls := [(Json.num 1, CallState.pending)] },
       .ok (Json.obj [("jsonrpc", .str "2.0"), ("method", .str "set_config"),
            ("params", .obj [("key", Json.str "addr")]), ("id", .num 1)])) := by
  have h1 := (C9_positional_keyword_exclusive initEngine "set_config" [Json.num 1]
    [("key", Json.str "addr")]).1 (by decide) (by decide)
  have h2 := (C9_positional_keyword_exclusive initEngine "set_config" []
    [("key", Json.str "addr")]).2.2 rfl (by decide)
  exact ⟨h1.trans rfl, h2.trans rfl⟩

/-- Processing a run of event notifications appends their `params`
payloads to the event queue in wire order and touches nothing else. -/
theorem readerRun_events (ms : List Json) :
    ∀ s : Engine,
      (∀ m ∈ ms, m.lookup "id" = none ∧ m.lookup "method" = some (.str "event") ∧
        (m.lookup "params").isSome) →
      readerRun s (ms.map some) =
        ({ s with eventQueue := (s.eventQueue ++ ms.filterMap (fun m => m.lookup "params")) },
         none) := by
  induction ms with
  | nil => intro s _; simp [readerRun]
  | cons m rest ih =>
      intro s hm
      obtain ⟨hid, hmeth, hp⟩ := hm m (by simp)
      obtain ⟨p, hp⟩ := Option.isSome_iff_exists.mp hp
      have hstep : readerStep s m = .ok { s with eventQueue := s.eventQueue ++ [p] } := by
        simp [readerStep, hid, hmeth, hp]
      have hrest := ih { s with eventQueue := s.eventQueue ++ [p] }
        (fun x hx => hm x (by simp [hx]))
      simp only [List.map_cons, readerRun, hstep, hrest, List.filterMap_cons, hp]
      simp

/-- C5: however many calls are outstanding, a run of `"event"`
notifications read off the wire is appended to the event queue in
exactly arrival order, with the pending-call table untouched, and
`get_next_event` consumes the queue strictly from the front (FIFO). -/
theorem C5_events_delivered_fifo (s : Engine) (ms : List Json)
    (hm : ∀ m ∈ ms, m.lookup "id" = none ∧ m.lookup "method" = some (.str "event") ∧
      (m.lookup "params").isSome) :
    readerRun s (ms.map some) =
      ({ s with eventQueue := (s.eventQueue ++ ms.filterMap (fun m => m.lookup "params")) },
       none) ∧
    (readerRun s (ms.map some)).1.calls = s.calls ∧
    (∀ t : Engine, ∀ e es, t.eventQueue = e :: es →
      get_next_event t = some (e, { t with eventQueue := es })) := by
  have h := readerRun_events ms s hm
  refine ⟨h, by rw [h], ?_⟩
  intro t e es ht
  simp [get_next_event, ht]

/-- C5 witness: with a call outstanding, two events arriving in order
end up queued in that order; popping returns the first, then the
second. -/
theorem C5_witness :
    readerRun c1State [some c5Event1, some c5Event2] =
      ({ c1State with eventQueue := [Json.obj [("contextId", .num 1),
          ("event", .obj [("type", .str "Info"), ("msg", .str "hi")])],
        Json.obj [("contextId", .num 1),
          ("event", .obj [("type", .str "IncomingMsg"), ("msgId", .num 8)])]] }, none) ∧
    (readerRun c1State [some c5Event1, some c5Event2]).1.calls = c1State.calls := by
  have h := C5_events_delivered_fifo c1State [c5Event1, c5Event2] (by decide)
  exact ⟨h.1.trans rfl, h.2.1⟩

/-- If a prefix of the stream is consumed without incident, the loop
carries on from the resulting state on the rest of the stream. -/
theorem readerRun_append (a : List (Option Json)) :
    ∀ (s s' : Engine), readerRun s a = (s', none) →
      ∀ b, readerRun s (a ++ b) = readerRun s' b := by
  induction a with
  | nil =>
      intro s s' h b
      simp only [readerRun, Prod.mk.injEq] at h
      rw [List.nil_append, h.1]
  | cons x rest ih =>
      intro s s' h b
      cases x with
      | none => simp [readerRun] at h
      | some j =>
          cases hstep : readerStep s j with
          | ok s1 =>
              simp only [readerRun, hstep] at h
              simp only [List.cons_append, readerRun, hstep]
              exact ih s1 s' h b
          | error e => simp [readerRun, hstep] at h

/-- C3 counterexample: with one call pending, end-of-stream (the empty
readline that `json.loads` rejects) kills the reader without touching
the table: the pending call is still pending afterwards — it is not
failed with a connection-closed error, so the claim that every pending
call is resolved on end-of-stream is false. -/
theorem C3_counterexample :
    readerRun onePending [none] = (onePending, some ReaderErr.decodeError) ∧
    lookupCall (readerRun onePending [none]).1.calls (Json.num 1) =
      some CallState.pending ∧
    ¬(∀ s : Engine, ∀ i, lookupCall s.calls i = some CallState.pending →
        lookupCall (readerRun s [none]).1.calls i ≠ some CallState.pending) := by
  refine ⟨rfl, rfl, ?_⟩
  intro h
  exact h onePending (Json.num 1) rfl rfl

/-- C3 amended: when the output stream closes after a cleanly processed
prefix, `readline` returns an empty line, `json.loads` raises on it and
the reader task dies with that decode error; every call still pending at
that point is left pending forever (nothing resolves its future), and no
synthetic event is pushed onto the event queue. -/
theorem C3_eof_reader_dies_calls_hang (s s' : Engine) (pre : List (Option Json))
    (h : readerRun s pre = (s', none)) :
    readerRun s (pre ++ [none]) = (s', some ReaderErr.decodeError) ∧
    (∀ i, lookupCall s'.calls i = some CallState.pending →
      lookupCall (readerRun s (pre ++ [none])).1.calls i = some CallState.pending) ∧
    (readerRun s (pre ++ [none])).1.eventQueue = s'.eventQueue := by
  have happ := readerRun_append pre s s' h [none]
  refine ⟨happ.trans rfl, ?_, by rw [happ]; rfl⟩
  intro i hi
  rw [happ]
  exact hi

/-- C3 witness: the amended statement at the concrete scenario — two
event-free lines processed, then end-of-stream with call 1 pending. -/
theorem C3_witness :
    readerRun onePending [none] = (onePending, some ReaderErr.decodeError) ∧
    lookupCall (readerRun onePending [none]).1.calls (Json.num 1) =
      some CallState.pending := by
  have h := C3_eof_reader_dies_calls_hang onePending onePending [] rfl
  exact ⟨h.1, h.2.1 (Json.num 1) rfl⟩

/-- C6 counterexample: a response with unregistered id 99 makes
`request_events.pop` raise KeyError and the reader task dies — but the
pending caller with id 1 is left pending, not resolved with any error,
so the claim that the failure is surfaced to every pending caller is
false. -/
theorem C6_counterexample :
    readerRun onePending [some strayResponse] = (onePending, some ReaderErr.keyError) ∧
    lookupCall (readerRun onePending [some strayResponse]).1.calls (Json.num 1) =
      some CallState.pending ∧
    ¬(∀ s : Engine, ∀ r i, r.lookup "id" = some i → lookupCall s.calls i = none →
        ∀ j, lookupCall s.calls j = some CallState.pending →
          lookupCall (readerRun s [some r]).1.calls j ≠ some CallState.pending) := by
  refine ⟨rfl, rfl, ?_⟩
  intro h
  exact h onePending strayResponse (Json.num 99) rfl rfl (Json.num 1) rfl rfl

/-- C6 amended: a Response whose id matches no table entry is not
silently dropped — `pop` raises KeyError and the reader loop terminates
on the spot, consuming no further input — but no pending caller is
notified: the state, including every pending future, is left exactly as
it was. -/
theorem C6_unknown_id_kills_reader (s : Engine) (r i : Json) (ls : List (Option Json))
    (hid : r.lookup "id" = some i)
    (hmiss : lookupCall s.calls i = none) :
    readerStep s r = .error .keyError ∧
    readerRun s (some r :: ls) = (s, some ReaderErr.keyError) := by
  have hstep : readerStep s r = .error .keyError := by
    simp [readerStep, hid, hmiss]
  exact ⟨hstep, by simp [readerRun, hstep]⟩

/-- C6 witness: the amended statement at the id-99 scenario. -/
theorem C6_witness :
    readerStep onePending strayResponse = .error .keyError ∧
    readerRun onePending [some strayResponse, some c5Event1] =
      (onePending, some ReaderErr.keyError) := by
  have h := C6_unknown_id_kills_reader onePending strayResponse (Json.num 99)
    [some c5Event1] rfl rfl
  exact ⟨h.1, h.2⟩

/-- C7 counterexample: a message with no id and method
`"connectivity"` is not treated as fatal: `readerStep` returns the
state unchanged and the loop keeps consuming input (a later event is
still delivered), refuting the claim that such a message stops the
engine and fails pending calls. -/
theorem C7_counterexample :
    readerStep onePending oddNotification = .ok onePending ∧
    readerRun onePending [some oddNotification, some c5Event1] =
      ({ onePending with eventQueue := [Json.obj [("contextId", .num 1),
          ("event", .obj [("type", .str "Info"), ("msg", .str "hi")])]] }, none) ∧
    ¬(∀ s : Engine, ∀ r m, r.lookup "id" = none → r.lookup "method" = some m →
        m ≠ Json.str "event" → readerStep s r ≠ .ok s) := by
  refine ⟨rfl, rfl, ?_⟩
  intro h
  exact h onePending oddNotification (Json.str "connectivity") rfl rfl (by decide) rfl

/-- C7 amended: a decoded message with no id and a `method` other than
`"event"` is silently skipped — the state is unchanged and the loop
continues with the rest of the stream; only a message with no id and no
`method` at all kills the reader task (KeyError on
`response["method"]`), and even then no pending call is failed. -/
theorem C7_unrecognized_message_skipped (s : Engine) (r m : Json) (ls : List (Option Json))
    (hid : r.lookup "id" = none)
    (hm : r.lookup "method" = some m)
    (hne : m ≠ Json.str "event") :
    readerStep s r = .ok s ∧
    readerRun s (some r :: ls) = readerRun s ls ∧
    (∀ r2, r2.lookup "id" = none → r2.lookup "method" = none →
      readerStep s r2 = .error .keyError ∧
      readerRun s (some r2 :: ls) = (s, some ReaderErr.keyError)) := by
  have hstep : readerStep s r = .ok s := by
    simp [readerStep, hid, hm, hne]
  refine ⟨hstep, by simp [readerRun, hstep], ?_⟩
  intro r2 hid2 hm2
  have hstep2 : readerStep s r2 = .error .keyError := by
    simp [readerStep, hid2, hm2]
  exact ⟨hstep2, by simp [readerRun, hstep2]⟩

/-- C7 witness: the amended statement at the `"connectivity"` message
scenario, with a later event showing the loop went on. -/
theorem C7_witness :
    readerStep onePending oddNotification = .ok onePending ∧
    readerRun onePending [some oddNotification, some c5Event1] =
      readerRun onePending [some c5Event1] := by
  have h := C7_unrecognized_message_skipped onePending oddNotification
    (Json.str "connectivity") [some c5Event1] rfl rfl (by decide)
  exact ⟨h.1, h.2.1⟩

/-- C8 counterexample: after the reader task has died (here on the
stray id-99 response), a further call does not fail — it sends a fresh
request and registers a new pending future, refuting the claim that
call attempts after a fatal session error fail immediately. -/
theorem C8_counterexample :
    (readerRun onePending [some strayResponse]).2 = some ReaderErr.keyError ∧
    (sendRequest (readerRun onePending [some strayResponse]).1
      "get_system_info" [] []).2 =
      .ok (Json.obj [("jsonrpc", .str "2.0"), ("method", .str "get_system_info"),
        ("params", .arr []), ("id", .num 2)]) ∧
    lookupCall (sendRequest (readerRun onePending [some strayResponse]).1
      "get_system_info" [] []).1.calls (Json.num 2) = some CallState.pending ∧
    ¬(∀ s : Engine, ∀ ls : List (Option Json), ∀ err : ReaderErr, ∀ attr : String,
        (readerRun s ls).2 = some err →
        (sendRequest (readerRun s ls).1 attr [] []).2 = .error ()) := by
  refine ⟨rfl, rfl, rfl, ?_⟩
  intro h
  exact Except.noConfusion (h onePending [some strayResponse] ReaderErr.keyError
    "get_system_info" rfl)

/-- C8 amended: there is no running/stopped check in the dispatcher:
even after the reader loop has terminated with a fatal error, a further
call still advances the counter, writes one more request to stdin and
registers a new pending future — a future nothing will ever resolve, so
the caller suspends on it forever rather than failing. -/
theorem C8_call_after_reader_death (s : Engine) (ls : List (Option Json))
    (err : ReaderErr) (attr : String) (args : List Json)
    (_hstop : (readerRun s ls).2 = some err) :
    sendRequest (readerRun s ls).1 attr args [] =
      ({ (readerRun s ls).1 with
          nextId := (readerRun s ls).1.nextId + 1,
          sent := ((readerRun s ls).1.sent ++ [Json.obj [("jsonrpc", .str "2.0"),
            ("method", .str attr), ("params", .arr args),
            ("id", .num ((readerRun s ls).1.nextId + 1))]]),
          calls := ((readerRun s ls).1.calls ++
            [(Json.num ((readerRun s ls).1.nextId + 1), CallState.pending)]) },
       .ok (Json.obj [("jsonrpc", .str "2.0"), ("method", .str attr),
         ("params", .arr args), ("id", .num ((readerRun s ls).1.nextId + 1))])) := by
  simp [sendRequest]

/-- C8 witness: the amended statement after the id-99 crash; the dead
engine accepts one more call with id 2. -/
theorem C8_witness :
    sendRequest (readerRun onePending [some strayResponse]).1 "get_system_info" [] [] =
      ({ onePending with
          nextId := 2,
          sent := ([Json.obj [("jsonrpc", .str "2.0"), ("method", .str "get_system_info"),
            ("params", .arr []), ("id", .num 2)]]),
          calls := ([(Json.num 1, CallState.pending), (Json.num 2, CallState.pending)]) },
       .ok (Json.obj [("jsonrpc", .str "2.0"), ("method", .str "get_system_info"),
         ("params", .arr []), ("id", .num 2)])) := by
  have h := C8_call_after_reader_death onePending [some strayResponse]
    ReaderErr.keyError "get_system_info" [] rfl
  exact h.trans rfl
